import Mathlib

/-!
# Verification of the DVD-Agent backend (`backend/server.py`)

A shallow embedding, in Lean 4, of the parts of `backend/server.py` that the
specification's claims are about: the Hunter rate limiter
(`HunterAPIClient._enforce_rate_limit`), the request/error mapping
(`HunterAPIClient._make_request`), the scraper collectors (`WebScraper`),
the background job processor (`process_search_job`) and the store CRUD
endpoints (`get_stores`, `update_store`, `start_email_discovery`).

Conventions of the embedding:
* wall-clock timestamps are rationals (`ℚ`), standing for the float seconds
  of `datetime.now().timestamp()` / `datetime.utcnow()`;
* MongoDB collections are Lean lists in natural (insertion) order; `find`
  preserves that order, `find_one` / `update_one` / `find_one_and_update`
  act on the first matching document;
* a JSON field that is optional-and-nullable is `Option _` on the document
  side; on the request-payload side `Option (Option _)` distinguishes
  "not supplied" (outer `none`, excluded by pydantic's `exclude_unset`)
  from "supplied as null";
* external I/O (the Hunter HTTP response, the scraped HTML, Reddit posts)
  is passed in as explicit data, so every function is pure and total.
-/

/-! ## Data model (`DVDStore`, `SearchJob` pydantic models) -/

/-- Embeds the pydantic model `DVDStore` (server.py lines 51-66).
`created_at`/`updated_at` are `datetime` fields, modelled as rational
timestamps. -/
structure DVDStore where
  id : String
  name : String
  address : Option String := none
  city : Option String := none
  state : Option String := none
  phone : Option String := none
  website : Option String := none
  email : Option String := none
  email_confidence : Option ℚ := none
  source : String
  source_url : Option String := none
  notes : Option String := none
  verified : Bool := false
  created_at : ℚ := 0
  updated_at : ℚ := 0
  deriving Repr, DecidableEq

/-- Job status strings used by `SearchJob.status`
(`"pending" | "running" | "completed" | "failed"`). -/
inductive JobStatus where
  | pending
  | running
  | completed
  | failed
  deriving Repr, DecidableEq

/-- A numeric rank along the lifecycle `pending → running → terminal`;
both terminal statuses share the top rank. -/
def JobStatus.rank : JobStatus → Nat
  | .pending => 0
  | .running => 1
  | .completed => 2
  | .failed => 2

/-- `completed` and `failed` are the terminal statuses. -/
def JobStatus.isTerminal : JobStatus → Bool
  | .completed => true
  | .failed => true
  | _ => false

/-! ## Rate limiter (`HunterAPIClient._enforce_rate_limit`, lines 105-125) -/

/-- Result of one `_enforce_rate_limit` call: the `asyncio.sleep` durations
awaited, in program order, and the value of `self.request_timestamps`
after the call. -/
structure RateLimitStep where
  sleeps : List ℚ
  newTimestamps : List ℚ
  deriving Repr, DecidableEq

/-- Embeds `HunterAPIClient._enforce_rate_limit` (lines 105-125).

`timestamps` is `self.request_timestamps` on entry, `currentTime` is
`datetime.now().timestamp()`.  The body:
* prunes timestamps `ts` with `ts > current_time - 60` (line 111);
* if at least 500 remain, sleeps `60 - (current_time - timestamps[0])`
  when that is positive (lines 114-118);
* if at least 15 of the pruned timestamps satisfy `ts > current_time - 1`,
  sleeps 1 second (lines 121-123);
* finally appends `current_time` (line 125). -/
def enforce_rate_limit (timestamps : List ℚ) (currentTime : ℚ) : RateLimitStep :=
  let cutoff := currentTime - 60
  let pruned := timestamps.filter (fun ts => cutoff < ts)
  let minuteSleeps : List ℚ :=
    if 500 ≤ pruned.length then
      match pruned with
      | [] => []
      | oldest :: _ =>
        let sleepTime := 60 - (currentTime - oldest)
        if 0 < sleepTime then [sleepTime] else []
    else []
  let recent := pruned.filter (fun ts => currentTime - 1 < ts)
  let secondSleeps : List ℚ := if 15 ≤ recent.length then [1] else []
  { sleeps := minuteSleeps ++ secondSleeps
    newTimestamps := pruned ++ [currentTime] }

/-- Total time the caller is suspended by one pre-request check. -/
def RateLimitStep.totalSleep (r : RateLimitStep) : ℚ := r.sleeps.sum

/-! ## Hunter request dispatch (`HunterAPIClient._make_request`, lines 127-150) -/

/-- Outcome of the single `http_client.get` attempt inside `_make_request`:
either an HTTP response with a status code and body text, an
`httpx.TimeoutException`, or an `httpx.RequestError`. -/
inductive RequestOutcome where
  | response (status : Nat) (body : String)
  | timeout
  | networkError (msg : String)
  deriving Repr, DecidableEq

/-- An `HTTPException(status_code=..., detail=...)` surfaced to the caller. -/
structure ApiError where
  status : Nat
  detail : String
  deriving Repr, DecidableEq

/-- Embeds the response handling of `_make_request` (lines 134-150):
status 403 ↦ 429 "Rate limit exceeded or insufficient credits",
status 401 ↦ 401 "Invalid API key",
any other status ≠ 200 ↦ the provider's status with the body in the detail,
timeout ↦ 408, request error ↦ 503; a 200 returns the body. -/
def interpretResponse : RequestOutcome → Except ApiError String
  | .response status body =>
      if status = 403 then
        .error { status := 429, detail := "Rate limit exceeded or insufficient credits" }
      else if status = 401 then
        .error { status := 401, detail := "Invalid API key" }
      else if status ≠ 200 then
        .error { status := status, detail := "API request failed: " ++ body }
      else .ok body
  | .timeout => .error { status := 408, detail := "Request timeout" }
  | .networkError msg => .error { status := 503, detail := "Network error: " ++ msg }

/-- Embeds `_make_request` against a stream of pending network outcomes:
the call performs exactly one `GET` attempt, consuming one outcome, and
returns the interpreted result together with the unconsumed stream
(there is no retry loop in the source). An empty stream stands for a
connection that cannot even be attempted. -/
def make_request (stream : List RequestOutcome) :
    Except ApiError String × List RequestOutcome :=
  match stream with
  | [] => (.error { status := 503, detail := "Network error: no connection" }, [])
  | outcome :: rest => (interpretResponse outcome, rest)

/-! ## Scraper collectors (`WebScraper`, lines 176-338) -/

/-- A candidate store dict produced by a collector (the `stores.append(...)`
payloads at lines 220-228, 268-272 and 322-327). -/
structure Candidate where
  name : String
  address : Option String := none
  city : Option String := none
  phone : Option String := none
  website : Option String := none
  source : String
  source_url : Option String := none
  notes : Option String := none
  deriving Repr, DecidableEq

/-- One raw `div.result` block of a Yellow Pages response page. The HTML is
opaque to the embedding: a block either exposes its (optional) sub-elements'
texts, or is `malformed`, standing for a block on which the extraction code
(lines 205-218) raises and lands in the `except` at line 230. -/
inductive RawResult where
  | fields (name address city phone website : Option String)
  | malformed
  deriving Repr, DecidableEq

/-- The `try` body at lines 204-228 applied to one result block:
each missing sub-element yields `None` (the name falls back to
`"Unknown"`), and a raising block yields no candidate (`continue`). -/
def parseYPResult (responseUrl : String) : RawResult → Option Candidate
  | .fields name address city phone website =>
      some { name := name.getD "Unknown"
             address := address
             city := city
             phone := phone
             website := website
             source := "yellow_pages"
             source_url := some responseUrl }
  | .malformed => none

/-- Outcome of a collector's single `session.get`: an HTTP response carrying
a status code and parsed items, or a network-level exception caught by the
collector's outer `except` (lines 237-238, 335-336). -/
inductive FetchOutcome (α : Type) where
  | response (status : Nat) (items : List α)
  | netError
  deriving Repr, DecidableEq

/-- Embeds `WebScraper.search_yellow_pages` (lines 183-240): a network error
returns the empty accumulator; a status other than 200 returns the empty
accumulator (line 195-196); otherwise the first `max_results` blocks are
parsed best-effort, raising blocks skipped. -/
def search_yellow_pages (fetch : FetchOutcome RawResult) (responseUrl : String)
    (maxResults : Nat) : List Candidate :=
  match fetch with
  | .netError => []
  | .response status items =>
      if status ≠ 200 then []
      else (items.take maxResults).filterMap (parseYPResult responseUrl)

/-- One entry of the Reddit listing's `children` array. A post is opaque to
the embedding: a well-formed post carries the candidate records that the two
regex patterns extract from its title+selftext (lines 303-327) — possibly
several per post, possibly none — and a `malformed` post stands for one on
which extraction raises and lands in the `except` at line 329. -/
inductive RawPost where
  | post (candidates : List Candidate)
  | malformed
  deriving Repr, DecidableEq

/-- Embeds `WebScraper.search_reddit` (lines 285-338): a network error or a
status other than 200 yields the empty accumulator (lines 297-299); otherwise
every well-formed post contributes its extracted candidates in order and a
raising post contributes nothing (`continue`). The `max_posts` budget is only
passed to the remote API as the `limit` query parameter; the response's posts
are not sliced client-side. -/
def search_reddit (fetch : FetchOutcome RawPost) : List Candidate :=
  match fetch with
  | .netError => []
  | .response status posts =>
      if status ≠ 200 then []
      else posts.foldl
        (fun acc p =>
          match p with
          | .post cs => acc ++ cs
          | .malformed => acc) []

/-! ## Email discovery (`process_search_job`, `email_discovery` branch,
lines 386-423) -/

/-- `beginsWith pat s = true` iff `pat` is an initial segment of `s`. -/
def beginsWith : List Char → List Char → Bool
  | [], _ => true
  | _ :: _, [] => false
  | p :: ps, c :: cs => p = c && beginsWith ps cs

/-- Python's `s.replace(pat, "")` on character lists: scan left to right,
deleting each occurrence of `pat` and resuming after it. The `fuel`
argument makes the recursion structural; each step consumes at least one
character, so `fuel = s.length` (see `removeAll`) never runs out. -/
def removeAllAux (pat : List Char) : Nat → List Char → List Char
  | 0, s => s
  | _ + 1, [] => []
  | fuel + 1, c :: rest =>
      if pat ≠ [] ∧ beginsWith pat (c :: rest) then
        removeAllAux pat fuel ((c :: rest).drop pat.length)
      else
        c :: removeAllAux pat fuel rest

/-- Python's `s.replace(pat, "")` on character lists. -/
def removeAll (pat : List Char) (s : List Char) : List Char :=
  removeAllAux pat s.length s

/-- Embeds line 395:
`website.replace("http://", "").replace("https://", "").replace("www.", "").split("/")[0]`. -/
def extractDomain (website : String) : String :=
  let s₁ := removeAll "http://".data website.data
  let s₂ := removeAll "https://".data s₁
  let s₃ := removeAll "www.".data s₂
  String.mk (s₃.takeWhile (fun c => c ≠ '/'))

/-- One email entry of a Hunter domain-search response
(`data.emails[i]`), with its `value` and `confidence` JSON fields,
either of which may be absent. -/
structure EmailCandidate where
  value : Option String := none
  confidence : Option ℚ := none
  deriving Repr, DecidableEq

/-- The outcome of `hunter_client.domain_search(domain, limit=5)` for each
domain: the `data.emails` list of the response, or an exception message
(caught at line 416). -/
abbrev DomainSearchOracle := String → Except String (List EmailCandidate)

/-- Mongo `update_one`: rewrite the first element satisfying `p`, if any. -/
def updateFirstWhere (p : α → Bool) (f : α → α) : List α → List α
  | [] => []
  | x :: xs => if p x then f x :: xs else x :: updateFirstWhere p f xs

/-- Embeds one iteration of the `for store_id in store_ids` loop
(lines 390-423): look up the store; if it exists and has a truthy website,
extract the domain and call domain-search; on at least one returned email
candidate, set the first candidate's `value` as the store's email, its
`confidence` (defaulted to 0, divided by 100) as `email_confidence`,
refresh `updated_at`, and add 1 credit; on an empty candidate list or a
raising lookup, change nothing and continue. -/
def processEmailStore (oracle : DomainSearchOracle) (now : ℚ)
    (db : List DVDStore) (credits : ℚ) (storeId : String) :
    List DVDStore × ℚ :=
  match db.find? (fun s => s.id == storeId) with
  | none => (db, credits)
  | some store =>
      match store.website with
      | none => (db, credits)
      | some website =>
          if website = "" then (db, credits)
          else
            match oracle (extractDomain website) with
            | .error _ => (db, credits)
            | .ok [] => (db, credits)
            | .ok (best :: _) =>
                (updateFirstWhere (fun s => s.id == storeId)
                  (fun s =>
                    { s with
                      email := best.value
                      email_confidence := some ((best.confidence.getD 0) / 100)
                      updated_at := now }) db,
                 credits + 1)

/-- The whole `email_discovery` work phase: the store-id list is walked
sequentially, threading the store collection and the job's
`results["credits_used"]` accumulator (initially 0). -/
def processEmailDiscovery (oracle : DomainSearchOracle) (now : ℚ)
    (db : List DVDStore) (storeIds : List String) : List DVDStore × ℚ :=
  storeIds.foldl (fun acc sid => processEmailStore oracle now acc.1 acc.2 sid)
    (db, 0)

/-! ## Storing discovered candidates (`process_search_job`, lines 426-434) -/

/-- `DVDStore(**store_data)` on a collector candidate dict: omitted fields
take the model's defaults, `id` a fresh uuid, both timestamps the current
time. -/
def candidateToStore (c : Candidate) (freshId : String) (now : ℚ) : DVDStore :=
  { id := freshId
    name := c.name
    address := c.address
    city := c.city
    state := none
    phone := c.phone
    website := c.website
    email := none
    email_confidence := none
    source := c.source
    source_url := c.source_url
    notes := c.notes
    verified := false
    created_at := now
    updated_at := now }

/-- The dedup probe of line 429: `find_one({"name": ..., "city": ...})`. -/
def sameDedupKey (s : DVDStore) (name : String) (city : Option String) : Bool :=
  s.name == name && s.city == city

/-- Embeds the storage loop (lines 426-434): each candidate in order is
turned into a store record (consuming a fresh uuid, indexed by `k`),
inserted only if no stored record shares its `(name, city)` pair, and
silently dropped otherwise; `total_found` counts the insertions. -/
def storeResults (now : ℚ) (db : List DVDStore) (k : Nat) :
    List Candidate → List DVDStore × Nat
  | [] => (db, 0)
  | c :: rest =>
      let store := candidateToStore c (toString k) now
      if db.any (fun s => sameDedupKey s store.name store.city) then
        storeResults now db (k + 1) rest
      else
        let step := storeResults now (db ++ [store]) (k + 1) rest
        (step.1, step.2 + 1)

/-! ## Job status lifecycle (`process_search_job`, lines 346-465) -/

/-- Outcome of the work phase of one job run: either all of it returns
normally, or some step raises and the exception is caught by the
top-level `except` at line 450. -/
inductive WorkOutcome where
  | success
  | failure (msg : String)
  deriving Repr, DecidableEq

/-- The sequence of values written to one job record's `status` field by its
single background task (the only writers of `status` in the program):
`"running"` at lines 357-360, then `"completed"` at lines 437-448 on normal
return or `"failed"` at lines 452-461 when the work phase raises. When the
job document is absent the task returns at line 352 without writing. -/
def jobStatusWrites (jobFound : Bool) (outcome : WorkOutcome) : List JobStatus :=
  if jobFound then
    match outcome with
    | .success => [.running, .completed]
    | .failure _ => [.running, .failed]
  else []

/-- The full history of one job record's `status` field: every job is
inserted with the model default `"pending"` (line 89) and then receives
exactly the writes of its background task. -/
def jobStatusHistory (jobFound : Bool) (outcome : WorkOutcome) : List JobStatus :=
  .pending :: jobStatusWrites jobFound outcome

/-! ## Store listing (`get_stores`, lines 494-519) -/

/-- A Mongo `$regex` pattern, restricted to the fragment this development
needs: literal characters and the any-one-character metacharacter `.`.
The embedding of `get_stores` is faithful for search terms whose characters
are either `.` or non-metacharacters of the regex language. -/
inductive RegexToken where
  | lit (c : Char)
  | dot
  deriving Repr, DecidableEq

/-- The characters that are metacharacters of the `$regex` language. -/
def isRegexMeta (c : Char) : Bool :=
  c = '.' || c = '*' || c = '+' || c = '?' || c = '[' || c = ']' ||
  c = '(' || c = ')' || c = '^' || c = '$' || c = '|' || c = '\\' ||
  c = '\x7b' || c = '\x7d'

/-- Compile a search term into a pattern: `.` becomes the wildcard, every
other character a literal. -/
def compileTerm (t : String) : List RegexToken :=
  t.data.map (fun c => if c = '.' then .dot else .lit c)

/-- Case-insensitive match of a pattern against an initial segment of the
text (the `$options: "i"` flag folds case). -/
def regexAccepts : List RegexToken → List Char → Bool
  | [], _ => true
  | _ :: _, [] => false
  | .lit p :: ps, c :: cs => (p.toLower = c.toLower) && regexAccepts ps cs
  | .dot :: ps, _ :: cs => regexAccepts ps cs

/-- Unanchored case-insensitive `$regex` search: the pattern may match at
any position of the text. -/
def regexFindIn (ps : List RegexToken) : List Char → Bool
  | [] => regexAccepts ps []
  | c :: cs => regexAccepts ps (c :: cs) || regexFindIn ps cs

/-- `$regex` applied to a nullable document field: a null field never
matches a regex condition. -/
def regexMatchOpt (ps : List RegexToken) : Option String → Bool
  | none => false
  | some s => regexFindIn ps s.data

/-- The Mongo filter dict built by `get_stores` (lines 503-516), applied to
one document: a truthy `search` adds an `$or` of case-insensitive `$regex`
conditions on name/city/address (an empty — falsy — search adds nothing);
a truthy `state` adds an exact equality on `state` (an empty state adds
nothing); a non-None `verified` adds an exact equality on `verified`. -/
def storeMatchesFilter (search state : Option String) (verified : Option Bool)
    (s : DVDStore) : Bool :=
  (match search with
   | none => true
   | some t =>
       if t = "" then true
       else
         regexFindIn (compileTerm t) s.name.data
         || regexMatchOpt (compileTerm t) s.city
         || regexMatchOpt (compileTerm t) s.address)
  &&
  (match state with
   | none => true
   | some st => if st = "" then true else s.state == some st)
  &&
  (match verified with
   | none => true
   | some v => s.verified == v)

/-- Embeds `get_stores` (lines 494-519). FastAPI validates the query
parameters first (`skip ≥ 0`, `1 ≤ limit ≤ 500`; out-of-range values are
rejected before the handler runs); the handler then returns
`find(filter).skip(skip).limit(limit)`, i.e. the filtered collection in
natural order with `skip` dropped and at most `limit` kept. -/
def get_stores (db : List DVDStore) (skip limit : ℤ)
    (search state : Option String) (verified : Option Bool) :
    Except ApiError (List DVDStore) :=
  if skip < 0 ∨ limit < 1 ∨ 500 < limit then
    .error { status := 422, detail := "query parameter validation failed" }
  else
    .ok (((db.filter (storeMatchesFilter search state verified)).drop
      skip.toNat).take limit.toNat)

/-- `containsSeg p s = true` iff `p` occurs in `s` as a contiguous
segment. -/
def containsSeg (p : List Char) : List Char → Bool
  | [] => beginsWith p []
  | c :: cs => beginsWith p (c :: cs) || containsSeg p cs

/-- The specification's matching notion for the search term:
case-insensitive substring containment. -/
def containsCI (t s : String) : Bool :=
  containsSeg (t.data.map Char.toLower) (s.data.map Char.toLower)

/-- The per-record filter predicate exactly as the claim words it: a given
search term must occur as a case-insensitive substring of name, city or
address; a given state and a given verified flag are matched exactly. -/
def claimedStoreMatch (search state : Option String) (verified : Option Bool)
    (s : DVDStore) : Bool :=
  (match search with
   | none => true
   | some t =>
       containsCI t s.name
       || (match s.city with | none => false | some c => containsCI t c)
       || (match s.address with | none => false | some a => containsCI t a))
  &&
  (match state with
   | none => true
   | some st => s.state == some st)
  &&
  (match verified with
   | none => true
   | some v => s.verified == v)

/-! ## Store update (`update_store`, lines 521-536; `DVDStoreCreate`,
lines 68-78) -/

/-- A validated `DVDStoreCreate` payload as produced by pydantic from a
request body. `name` is required, so it is always set; `source` is
non-nullable with a default, so it is either unset (outer `none`,
excluded by `exclude_unset`) or a string; every other field is
optional-and-nullable, so the outer `Option` records whether the field
was supplied and the inner one its (possibly null) value. -/
structure DVDStoreCreatePayload where
  name : String
  address : Option (Option String) := none
  city : Option (Option String) := none
  state : Option (Option String) := none
  phone : Option (Option String) := none
  website : Option (Option String) := none
  email : Option (Option String) := none
  source : Option String := none
  source_url : Option (Option String) := none
  notes : Option (Option String) := none
  deriving Repr, DecidableEq

/-- `update_dict = store_update.dict(exclude_unset=True)` followed by
`update_dict["updated_at"] = datetime.utcnow()`, applied to one document by
`$set` (lines 524-530): supplied fields are overwritten, unsupplied fields
keep their stored values, and `updated_at` is always overwritten. -/
def applyStoreUpdate (u : DVDStoreCreatePayload) (now : ℚ) (s : DVDStore) :
    DVDStore :=
  { s with
    name := u.name
    address := u.address.getD s.address
    city := u.city.getD s.city
    state := u.state.getD s.state
    phone := u.phone.getD s.phone
    website := u.website.getD s.website
    email := u.email.getD s.email
    source := u.source.getD s.source
    source_url := u.source_url.getD s.source_url
    notes := u.notes.getD s.notes
    updated_at := now }

/-- Embeds `update_store` (lines 521-536): `find_one_and_update` rewrites
the first document with the given id and returns the updated document;
with no match it returns None and the handler raises 404. The second
component is the store collection after the call. -/
def update_store (db : List DVDStore) (storeId : String)
    (u : DVDStoreCreatePayload) (now : ℚ) :
    Except ApiError DVDStore × List DVDStore :=
  match db.find? (fun s => s.id == storeId) with
  | none => (.error { status := 404, detail := "Store not found" }, db)
  | some s =>
      (.ok (applyStoreUpdate u now s),
       updateFirstWhere (fun r => r.id == storeId) (applyStoreUpdate u now) db)

/-- A raw JSON request body for PUT /stores/…, before pydantic validation:
every field, `name` included, may be absent. -/
structure RawStorePayload where
  name : Option String := none
  address : Option (Option String) := none
  city : Option (Option String) := none
  state : Option (Option String) := none
  phone : Option (Option String) := none
  website : Option (Option String) := none
  email : Option (Option String) := none
  source : Option String := none
  source_url : Option (Option String) := none
  notes : Option (Option String) := none
  deriving Repr, DecidableEq

/-- Pydantic validation of a body against `DVDStoreCreate` (lines 68-78):
`name` is the only field without a default, so a body lacking it is
rejected with 422 before the handler runs; any other absent field stays
unset. -/
def validateStorePayload (r : RawStorePayload) :
    Except ApiError DVDStoreCreatePayload :=
  match r.name with
  | none => .error { status := 422, detail := "field required: name" }
  | some n =>
      .ok { name := n
            address := r.address
            city := r.city
            state := r.state
            phone := r.phone
            website := r.website
            email := r.email
            source := r.source
            source_url := r.source_url
            notes := r.notes }

/-- The PUT /stores/… endpoint including request validation: a body that
fails validation never reaches `update_store`, so the collection is
untouched; a valid body is applied by `update_store`. -/
def update_store_endpoint (db : List DVDStore) (storeId : String)
    (raw : RawStorePayload) (now : ℚ) :
    Except ApiError DVDStore × List DVDStore :=
  match validateStorePayload raw with
  | .error e => (.error e, db)
  | .ok u => update_store db storeId u now

/-! ## Email-discovery job creation (`start_email_discovery`,
lines 608-630) -/

/-- The default target list of an email-discovery job (line 616):
`find({"email": None, "website": {"$ne": None}}).to_list(1000)` — the
stores with no email and a non-null website, in collection order, capped
at the first 1000 — projected to their ids. -/
def emailDiscoveryDefaultIds (db : List DVDStore) : List String :=
  ((db.filter (fun s => s.email == none && s.website != none)).take 1000).map
    (fun s => s.id)

/-- The JSON body returned by POST /search/emails. -/
structure StartEmailResponse where
  job_id : String
  status : String
  stores_to_process : Nat
  deriving Repr, DecidableEq

/-- Embeds `start_email_discovery` (lines 608-630): a falsy `store_ids`
(absent or the empty list) is replaced by the default target ids computed
at job-creation time; a job whose parameter list is those ids is inserted,
and the response reports the job id, status "started" and the length of
the id list. The first component is the created job's parameter list. -/
def start_email_discovery (db : List DVDStore)
    (storeIds : Option (List String)) (jobId : String) :
    List String × StartEmailResponse :=
  let ids :=
    match storeIds with
    | none => emailDiscoveryDefaultIds db
    | some l => if l.isEmpty then emailDiscoveryDefaultIds db else l
  (ids, { job_id := jobId, status := "started", stores_to_process := ids.length })

/-! ## Shared helper lemmas -/

/-- Filtering a `replicate` by a predicate the element satisfies keeps the
whole list. -/
theorem filter_replicate_eq_self {α : Type} (p : α → Bool) (a : α)
    (h : p a = true) : ∀ n, (List.replicate n a).filter p = List.replicate n a := by
  intro n
  induction n with
  | zero => rfl
  | succ n ih => simp [List.replicate_succ, List.filter_cons, h, ih]

/-! ## C1 — rate limiter -/

/-- C1: every pre-request check first prunes timestamps older than 60
seconds and records the call's own timestamp only after both checks, at the
end of the pruned list; the total suspension is nonnegative; when at least
500 timestamps remain in the 60-second window the caller is suspended until
the oldest recorded timestamp falls outside that window
(`oldest + 60 ≤ currentTime + totalSleep`, so in particular the 501st of
501 calls within 60 seconds is delayed until the window admits it); and
when at least 15 of the remaining timestamps lie within the trailing second
the caller is suspended for at least 1 second (so the 16th of 16 calls
within 1 second is delayed at least 1 second). -/
theorem rate_limit_spec (timestamps : List ℚ) (currentTime : ℚ) :
    (enforce_rate_limit timestamps currentTime).newTimestamps
      = timestamps.filter (fun ts => currentTime - 60 < ts) ++ [currentTime]
    ∧ 0 ≤ (enforce_rate_limit timestamps currentTime).totalSleep
    ∧ (∀ oldest rest,
        timestamps.filter (fun ts => currentTime - 60 < ts) = oldest :: rest →
        500 ≤ (timestamps.filter (fun ts => currentTime - 60 < ts)).length →
        oldest + 60 ≤ currentTime + (enforce_rate_limit timestamps currentTime).totalSleep)
    ∧ (15 ≤ ((timestamps.filter (fun ts => currentTime - 60 < ts)).filter
          (fun ts => currentTime - 1 < ts)).length →
        1 ≤ (enforce_rate_limit timestamps currentTime).totalSleep) := by
  unfold enforce_rate_limit RateLimitStep.totalSleep
  simp only [List.sum_append]
  generalize List.filter (fun ts => decide (currentTime - 60 < ts)) timestamps = P
  have hB : (0:ℚ) ≤ (if 15 ≤ (P.filter (fun ts => decide (currentTime - 1 < ts))).length
      then ([1]:List ℚ) else []).sum := by
    split <;> simp
  have hA : (0:ℚ) ≤ (if 500 ≤ P.length then
      match P with
      | [] => ([] : List ℚ)
      | oldest :: _ =>
        if 0 < 60 - (currentTime - oldest) then [60 - (currentTime - oldest)] else []
    else []).sum := by
    rcases P with - | ⟨oldest, rest⟩
    · simp
    · by_cases h5 : 500 ≤ (oldest :: rest).length
      · rw [if_pos h5]
        change (0:ℚ) ≤ (if 0 < 60 - (currentTime - oldest)
            then [60 - (currentTime - oldest)] else ([]:List ℚ)).sum
        by_cases hpos : 0 < 60 - (currentTime - oldest)
        · rw [if_pos hpos]
          simp only [List.sum_cons, List.sum_nil, add_zero]
          linarith
        · rw [if_neg hpos]
          simp
      · rw [if_neg h5]
        simp
  refine ⟨trivial, by linarith, ?_, ?_⟩
  · intro oldest rest hp h500
    subst hp
    rw [if_pos h500]
    change oldest + 60 ≤ currentTime + ((if 0 < 60 - (currentTime - oldest)
      then [60 - (currentTime - oldest)] else ([]:List ℚ)).sum + _)
    by_cases hpos : 0 < 60 - (currentTime - oldest)
    · rw [if_pos hpos]
      simp only [List.sum_cons, List.sum_nil, add_zero]
      linarith
    · rw [if_neg hpos]
      simp only [List.sum_nil, zero_add]
      push_neg at hpos
      linarith
  · intro h15
    rw [if_pos h15]
    simp only [List.sum_cons, List.sum_nil, add_zero]
    linarith

/-- C1 witness: with 15 timestamps recorded inside the trailing second, the
16th call is suspended for at least 1 second; with 500 timestamps recorded
10 seconds before a 60-second window closes, the 501st call is suspended
until the window admits it (until time `oldest + 60 = 110`). -/
theorem rate_limit_spec_witness :
    1 ≤ (enforce_rate_limit (List.replicate 15 (100:ℚ)) 100).totalSleep
    ∧ (50:ℚ) + 60 ≤ 100 + (enforce_rate_limit (List.replicate 500 (50:ℚ)) 100).totalSleep := by
  constructor
  · apply (rate_limit_spec (List.replicate 15 (100:ℚ)) 100).2.2.2
    rw [filter_replicate_eq_self _ _ (by norm_num) 15,
        filter_replicate_eq_self _ _ (by norm_num) 15,
        List.length_replicate]
  · apply (rate_limit_spec (List.replicate 500 (50:ℚ)) 100).2.2.1 50 (List.replicate 499 50)
    · rw [filter_replicate_eq_self _ _ (by norm_num) 500]
      rfl
    · rw [filter_replicate_eq_self _ _ (by norm_num) 500,
          List.length_replicate]

/-! ## C2 — job status state machine -/

/-- C2: a job's status history starts at `pending`; the ranks along the
history are strictly increasing, so no step ever moves a job from a
terminal status back to `pending` or `running`; when the job document is
found, the single background task writes exactly `running` followed by
exactly one of `completed`/`failed`; and no write ever follows a write of a
terminal status. -/
theorem job_status_lifecycle (jobFound : Bool) (outcome : WorkOutcome) :
    List.Pairwise (fun a b => a.rank < b.rank) (jobStatusHistory jobFound outcome)
    ∧ (jobStatusHistory jobFound outcome).head? = some .pending
    ∧ (jobFound = true →
        jobStatusWrites jobFound outcome = [.running, .completed]
        ∨ jobStatusWrites jobFound outcome = [.running, .failed])
    ∧ (∀ i a b, (jobStatusHistory jobFound outcome)[i]? = some a →
        (jobStatusHistory jobFound outcome)[i + 1]? = some b →
        a.isTerminal = false) := by
  cases jobFound <;> cases outcome <;>
    refine ⟨by simp [jobStatusHistory, jobStatusWrites, List.pairwise_cons,
      JobStatus.rank], rfl, by simp [jobStatusWrites], ?_⟩ <;>
    · intro i a b h1 h2
      rcases i with _ | _ | _ | i <;>
        simp_all [jobStatusHistory, jobStatusWrites] <;>
        subst h1 <;> rfl

/-- C2 witness: a found job whose work phase succeeds writes exactly
`running` then `completed`, and the status preceding any later write is
never terminal. -/
theorem job_status_lifecycle_witness :
    (jobStatusWrites true .success = [.running, .completed]
      ∨ jobStatusWrites true .success = [.running, .failed])
    ∧ JobStatus.isTerminal .pending = false :=
  ⟨(job_status_lifecycle true .success).2.2.1 rfl,
   (job_status_lifecycle true .success).2.2.2 0 .pending .running rfl rfl⟩

/-! ## C3 — (name, city) dedup on insertion -/

/-- C3: one sequential storage run extends the collection by exactly the
inserted records (counted by `total_found`); every inserted record's
`(name, city)` pair differs from every pre-existing record's pair — a
candidate matching an existing pair is dropped — and the inserted records
have pairwise distinct `(name, city)` pairs, so no two candidates processed
by the run both land in storage with an identical pair. -/
theorem dedup_insertion (now : ℚ) (db : List DVDStore) (k : Nat)
    (cands : List Candidate) :
    ∃ inserted,
      (storeResults now db k cands).1 = db ++ inserted
      ∧ (storeResults now db k cands).2 = inserted.length
      ∧ (∀ x ∈ inserted, ∀ y ∈ db, ¬(x.name = y.name ∧ x.city = y.city))
      ∧ List.Pairwise (fun a b => ¬(a.name = b.name ∧ a.city = b.city)) inserted := by
  induction cands generalizing db k with
  | nil => exact ⟨[], by simp [storeResults], by simp [storeResults], by simp, by simp⟩
  | cons c rest ih =>
    by_cases hex : db.any (fun s =>
        sameDedupKey s (candidateToStore c (toString k) now).name
          (candidateToStore c (toString k) now).city) = true
    · obtain ⟨ins, h1, h2, h3, h4⟩ := ih db (k + 1)
      refine ⟨ins, ?_, ?_, h3, h4⟩
      · rw [storeResults, if_pos hex]
        exact h1
      · rw [storeResults, if_pos hex]
        exact h2
    · obtain ⟨ins, h1, h2, h3, h4⟩ := ih (db ++ [candidateToStore c (toString k) now]) (k + 1)
      have hfresh : ∀ y ∈ db,
          ¬((candidateToStore c (toString k) now).name = y.name
            ∧ (candidateToStore c (toString k) now).city = y.city) := by
        intro y hy hcontra
        apply hex
        rw [List.any_eq_true]
        refine ⟨y, hy, ?_⟩
        simp [sameDedupKey, hcontra.1, hcontra.2]
      refine ⟨candidateToStore c (toString k) now :: ins, ?_, ?_, ?_, ?_⟩
      · rw [storeResults, if_neg hex]
        simpa [List.append_assoc] using h1
      · rw [storeResults, if_neg hex]
        simp [h2]
      · intro x hx y hy
        rcases List.mem_cons.mp hx with hx | hx
        · subst hx
          exact hfresh y hy
        · exact h3 x hx y (by simp [hy])
      · rw [List.pairwise_cons]
        refine ⟨?_, h4⟩
        intro x hx hcontra
        exact h3 x hx (candidateToStore c (toString k) now) (by simp)
          ⟨hcontra.1.symm, hcontra.2.symm⟩

/-- A sample stored record for concrete instantiations. -/
def wStore : DVDStore :=
  { id := "s1", name := "Video Hut", city := some "Austin", source := "manual" }

/-- A sample discovered candidate with a different `(name, city)` pair. -/
def wCand : Candidate :=
  { name := "Movie Max", city := some "Dallas", source := "reddit" }

/-- C3 witness: running the storage loop on one fresh candidate over a
one-record collection inserts it, and the dedup invariant instantiates to
the concrete disequality of the two records' `(name, city)` pairs. -/
theorem dedup_insertion_witness :
    ¬((candidateToStore wCand "0" 0).name = wStore.name
      ∧ (candidateToStore wCand "0" 0).city = wStore.city) := by
  obtain ⟨ins, h1, h2, h3, h4⟩ := dedup_insertion 0 [wStore] 0 [wCand]
  have he : ([wStore] : List DVDStore) ++ [candidateToStore wCand "0" 0]
      = [wStore] ++ ins := by
    rw [← h1]
    rfl
  have hins : ins = [candidateToStore wCand "0" 0] := by
    simpa using he.symm
  subst hins
  exact h3 _ (by simp) wStore (by simp)

/-! ## C4 — email discovery writes -/

/-- `find?` over a split list whose prefix has no match returns the split
element when it matches. -/
theorem find?_append_cons {α : Type} (p : α → Bool) (pre : List α) (s : α)
    (post : List α) (hpre : ∀ x ∈ pre, p x = false) (hs : p s = true) :
    (pre ++ s :: post).find? p = some s := by
  induction pre with
  | nil => simpa using List.find?_cons_of_pos post hs
  | cons a as ih =>
      rw [List.cons_append, List.find?_cons_of_neg _ (by simp [hpre a (by simp)])]
      exact ih (fun x hx => hpre x (by simp [hx]))

/-- `updateFirstWhere` over a split list whose prefix has no match rewrites
exactly the split element. -/
theorem updateFirstWhere_append_cons {α : Type} (p : α → Bool) (f : α → α)
    (pre : List α) (s : α) (post : List α)
    (hpre : ∀ x ∈ pre, p x = false) (hs : p s = true) :
    updateFirstWhere p f (pre ++ s :: post) = pre ++ f s :: post := by
  induction pre with
  | nil => simp [updateFirstWhere, hs]
  | cons a as ih =>
      simp only [List.cons_append, updateFirstWhere, hpre a (by simp)]
      exact congrArg (List.cons a) (ih (fun x hx => hpre x (by simp [hx])))

/-- C4: processing one store id of an email-discovery job. When the store
exists (first match in the collection), has a truthy website and
domain-search returns at least one candidate, exactly the first (top)
candidate's address and its confidence divided by 100 are written onto the
store's `email`/`email_confidence` together with a refreshed `updated_at`,
every other field and every other store is unchanged, and the credits
counter grows by exactly 1. When the lookup returns no candidate or raises,
the collection and the credits are unchanged, and the job continues: the
run over the remaining ids is exactly the run without the failed id. -/
theorem email_discovery_step (oracle : DomainSearchOracle) (now : ℚ)
    (db : List DVDStore) (credits : ℚ) (storeId : String) :
    (∀ pre s post website best others,
        db = pre ++ s :: post →
        (∀ x ∈ pre, x.id ≠ storeId) →
        s.id = storeId →
        s.website = some website →
        website ≠ "" →
        oracle (extractDomain website) = .ok (best :: others) →
        processEmailStore oracle now db credits storeId
          = (pre ++
              { s with
                email := best.value
                email_confidence := some ((best.confidence.getD 0) / 100)
                updated_at := now } :: post,
             credits + 1))
    ∧ (∀ s website,
        db.find? (fun r => r.id == storeId) = some s →
        s.website = some website →
        website ≠ "" →
        (oracle (extractDomain website) = .ok []
          ∨ ∃ e, oracle (extractDomain website) = .error e) →
        processEmailStore oracle now db credits storeId = (db, credits))
    ∧ (∀ rest s website,
        db.find? (fun r => r.id == storeId) = some s →
        s.website = some website →
        website ≠ "" →
        (oracle (extractDomain website) = .ok []
          ∨ ∃ e, oracle (extractDomain website) = .error e) →
        processEmailDiscovery oracle now db (storeId :: rest)
          = processEmailDiscovery oracle now db rest) := by
  have hskip : ∀ (credits' : ℚ) s website,
      db.find? (fun r => r.id == storeId) = some s →
      s.website = some website →
      website ≠ "" →
      (oracle (extractDomain website) = .ok []
        ∨ ∃ e, oracle (extractDomain website) = .error e) →
      processEmailStore oracle now db credits' storeId = (db, credits') := by
    intro credits' s website hfind hweb hne hres
    rcases hres with h | ⟨e, h⟩ <;>
      simp [processEmailStore, hfind, hweb, hne, h]
  refine ⟨?_, hskip credits, ?_⟩
  · intro pre s post website best others hdb hpre hid hweb hne hor
    subst hdb
    have hfind : (pre ++ s :: post).find? (fun r => r.id == storeId) = some s := by
      apply find?_append_cons
      · intro x hx
        simpa using hpre x hx
      · simpa using hid
    have hupd := updateFirstWhere_append_cons (fun r => r.id == storeId)
      (fun r =>
        { r with
          email := best.value
          email_confidence := some ((best.confidence.getD 0) / 100)
          updated_at := now })
      pre s post (fun x hx => by simpa using hpre x hx) (by simpa using hid)
    simp [processEmailStore, hfind, hweb, hne, hor, hupd]
  · intro rest s website hfind hweb hne hres
    unfold processEmailDiscovery
    rw [List.foldl_cons]
    rw [hskip 0 s website hfind hweb hne hres]

/-- A store whose domain lookup will succeed. -/
def wStoreE : DVDStore :=
  { id := "e1", name := "Movie Max",
    website := some "https://www.moviemax.com/contact", source := "manual" }

/-- A store whose domain lookup will return no candidates. -/
def wStoreN : DVDStore :=
  { id := "e2", name := "No Mail", website := some "https://nothing.example/",
    source := "manual" }

/-- A domain-search oracle knowing one email for one domain. -/
def wOracle : DomainSearchOracle := fun d =>
  if d = "moviemax.com" then
    .ok [{ value := some "info@moviemax.com", confidence := some 80 }]
  else .ok []

/-- C4 witness: on a one-store collection the successful lookup writes the
top candidate's address, its confidence divided by 100 and the fresh
timestamp, and adds one credit; a lookup with no candidates changes nothing
and the run continues as if the id were absent. -/
theorem email_discovery_step_witness :
    processEmailStore wOracle 5 [wStoreE] 0 "e1"
      = ([] ++
          { wStoreE with
            email := some "info@moviemax.com"
            email_confidence := some ((80 : ℚ) / 100)
            updated_at := 5 } :: [],
         0 + 1)
    ∧ processEmailDiscovery wOracle 5 [wStoreN] ["e2"]
      = processEmailDiscovery wOracle 5 [wStoreN] [] := by
  constructor
  · exact (email_discovery_step wOracle 5 [wStoreE] 0 "e1").1
      [] wStoreE [] "https://www.moviemax.com/contact"
      { value := some "info@moviemax.com", confidence := some 80 } []
      rfl (by simp) rfl rfl (by decide)
      (by have : extractDomain "https://www.moviemax.com/contact" = "moviemax.com" := by decide
          rw [this]
          rfl)
  · exact (email_discovery_step wOracle 5 [wStoreN] 0 "e2").2.2
      [] wStoreN "https://nothing.example/"
      rfl rfl (by decide)
      (Or.inl
        (by have : extractDomain "https://nothing.example/" = "nothing.example" := by decide
            rw [this]
            rfl))

/-! ## C5 — partial update frame -/

/-- C5: the partial-update operation writes exactly the supplied payload
fields (`name` is always supplied since the payload type requires it);
every unsupplied field — including `id`, `created_at`, `verified` and
`email_confidence`, which no payload can carry — keeps its stored value;
`updated_at` is always rewritten to the handler's current time, hence is
strictly later whenever the clock has advanced past the stored value; and
the collection is rewritten only at the first record with the given id. -/
theorem update_store_spec (db : List DVDStore) (storeId : String)
    (u : DVDStoreCreatePayload) (now : ℚ) (s : DVDStore) :
    ((applyStoreUpdate u now s).name = u.name
      ∧ (∀ v, u.address = some v → (applyStoreUpdate u now s).address = v)
      ∧ (u.address = none → (applyStoreUpdate u now s).address = s.address)
      ∧ (∀ v, u.city = some v → (applyStoreUpdate u now s).city = v)
      ∧ (u.city = none → (applyStoreUpdate u now s).city = s.city)
      ∧ (∀ v, u.state = some v → (applyStoreUpdate u now s).state = v)
      ∧ (u.state = none → (applyStoreUpdate u now s).state = s.state)
      ∧ (∀ v, u.phone = some v → (applyStoreUpdate u now s).phone = v)
      ∧ (u.phone = none → (applyStoreUpdate u now s).phone = s.phone)
      ∧ (∀ v, u.website = some v → (applyStoreUpdate u now s).website = v)
      ∧ (u.website = none → (applyStoreUpdate u now s).website = s.website)
      ∧ (∀ v, u.email = some v → (applyStoreUpdate u now s).email = v)
      ∧ (u.email = none → (applyStoreUpdate u now s).email = s.email)
      ∧ (∀ v, u.source = some v → (applyStoreUpdate u now s).source = v)
      ∧ (u.source = none → (applyStoreUpdate u now s).source = s.source)
      ∧ (∀ v, u.source_url = some v → (applyStoreUpdate u now s).source_url = v)
      ∧ (u.source_url = none → (applyStoreUpdate u now s).source_url = s.source_url)
      ∧ (∀ v, u.notes = some v → (applyStoreUpdate u now s).notes = v)
      ∧ (u.notes = none → (applyStoreUpdate u now s).notes = s.notes)
      ∧ (applyStoreUpdate u now s).id = s.id
      ∧ (applyStoreUpdate u now s).created_at = s.created_at
      ∧ (applyStoreUpdate u now s).verified = s.verified
      ∧ (applyStoreUpdate u now s).email_confidence = s.email_confidence
      ∧ (applyStoreUpdate u now s).updated_at = now)
    ∧ (s.updated_at < now → s.updated_at < (applyStoreUpdate u now s).updated_at)
    ∧ (∀ pre post,
        db = pre ++ s :: post →
        (∀ x ∈ pre, x.id ≠ storeId) →
        s.id = storeId →
        update_store db storeId u now
          = (.ok (applyStoreUpdate u now s),
             pre ++ applyStoreUpdate u now s :: post)) := by
  refine ⟨?_, ?_, ?_⟩
  · refine ⟨rfl, ?_, ?_, ?_, ?_, ?_, ?_, ?_, ?_, ?_, ?_, ?_, ?_, ?_, ?_, ?_, ?_,
        ?_, ?_, rfl, rfl, rfl, rfl, rfl⟩ <;>
      · intros
        simp_all [applyStoreUpdate]
  · intro h
    simpa [applyStoreUpdate] using h
  · intro pre post hdb hpre hid
    subst hdb
    have hfind : (pre ++ s :: post).find? (fun r => r.id == storeId) = some s := by
      apply find?_append_cons
      · intro x hx
        simpa using hpre x hx
      · simpa using hid
    have hupd := updateFirstWhere_append_cons (fun r => r.id == storeId)
      (applyStoreUpdate u now) pre s post
      (fun x hx => by simpa using hpre x hx) (by simpa using hid)
    simp [update_store, hfind, hupd]

/-- A stored record for the update witness. -/
def wStoreU : DVDStore :=
  { id := "u1", name := "Old Name", state := some "OR", source := "manual",
    updated_at := 0 }

/-- A partial payload supplying `name` and `city` only. -/
def wPayload : DVDStoreCreatePayload :=
  { name := "New Name", city := some (some "Portland") }

/-- C5 witness: the concrete partial update writes the supplied `city`,
keeps the unsupplied `state`, strictly advances `updated_at`, and rewrites
exactly the matched record of a one-record collection. -/
theorem update_store_spec_witness :
    (applyStoreUpdate wPayload 5 wStoreU).city = some "Portland"
    ∧ (applyStoreUpdate wPayload 5 wStoreU).state = wStoreU.state
    ∧ wStoreU.updated_at < (applyStoreUpdate wPayload 5 wStoreU).updated_at
    ∧ update_store [wStoreU] "u1" wPayload 5
      = (.ok (applyStoreUpdate wPayload 5 wStoreU),
         [] ++ applyStoreUpdate wPayload 5 wStoreU :: []) :=
  ⟨(update_store_spec [wStoreU] "u1" wPayload 5 wStoreU).1.2.2.2.1 (some "Portland") rfl,
   (update_store_spec [wStoreU] "u1" wPayload 5 wStoreU).1.2.2.2.2.2.2.1 rfl,
   (update_store_spec [wStoreU] "u1" wPayload 5 wStoreU).2.1 (by norm_num [wStoreU]),
   (update_store_spec [wStoreU] "u1" wPayload 5 wStoreU).2.2 [] [] rfl (by simp) rfl⟩

/-! ## C10 — required `name` in the update payload -/

/-- C10: a PUT body omitting `name` fails `DVDStoreCreate` validation with
a 422 before any repository access, so the store collection — in
particular the targeted record — is entirely unchanged. -/
theorem update_missing_name_rejected (db : List DVDStore) (storeId : String)
    (raw : RawStorePayload) (now : ℚ) (h : raw.name = none) :
    update_store_endpoint db storeId raw now
      = (.error { status := 422, detail := "field required: name" }, db) := by
  simp [update_store_endpoint, validateStorePayload, h]

/-- C10 witness: the empty body against an arbitrary one-record collection
is rejected and the collection is returned unchanged. -/
theorem update_missing_name_rejected_witness :
    update_store_endpoint [wStoreU] "u1" {} 5
      = (.error { status := 422, detail := "field required: name" }, [wStoreU]) :=
  update_missing_name_rejected [wStoreU] "u1" {} 5 rfl

/-! ## C6 — default email-discovery target list -/

/-- A stored record lacking an email but having a website. -/
def wStoreW : DVDStore :=
  { id := "w1", name := "Webbed", website := some "http://w.example",
    source := "manual" }

/-- C6 counterexample: with 1001 stored records lacking an email and having
a website, the created job's reported `stores_to_process` is 1000, not the
number of all such records — the creation-time query is capped by
`to_list(1000)`. -/
theorem email_discovery_default_unbounded_false :
    (start_email_discovery (List.replicate 1001 wStoreW) none "j").2.stores_to_process
      ≠ ((List.replicate 1001 wStoreW).filter
          (fun s => s.email == none && s.website != none)).length := by
  have hf := filter_replicate_eq_self
    (fun s : DVDStore => s.email == none && s.website != none) wStoreW rfl 1001
  show ((((List.replicate 1001 wStoreW).filter
      (fun s => s.email == none && s.website != none)).take 1000).map
        (fun s => s.id)).length
    ≠ ((List.replicate 1001 wStoreW).filter
        (fun s => s.email == none && s.website != none)).length
  rw [hf, List.length_map, List.length_take, List.length_replicate]
  omega

/-- C6 (amended): a job started with an absent or empty id list computes its
parameter list at creation time as the ids of the first 1000 stored records
lacking an email but having a website — all of them whenever at most 1000
match — and the response carries the job id, status "started" and
`stores_to_process` equal to that list's length. -/
theorem email_discovery_default_targets (db : List DVDStore) (jobId : String)
    (storeIds : Option (List String))
    (hids : storeIds = none ∨ storeIds = some []) :
    (start_email_discovery db storeIds jobId).1
      = ((db.filter (fun s => s.email == none && s.website != none)).take 1000).map
          (fun s => s.id)
    ∧ (start_email_discovery db storeIds jobId).2.status = "started"
    ∧ (start_email_discovery db storeIds jobId).2.job_id = jobId
    ∧ (start_email_discovery db storeIds jobId).2.stores_to_process
      = (start_email_discovery db storeIds jobId).1.length
    ∧ ((db.filter (fun s => s.email == none && s.website != none)).length ≤ 1000 →
        (start_email_discovery db storeIds jobId).1
          = (db.filter (fun s => s.email == none && s.website != none)).map
              (fun s => s.id)) := by
  rcases hids with h | h <;> subst h <;>
    refine ⟨rfl, rfl, rfl, rfl, ?_⟩ <;>
    · intro hlen
      simp [start_email_discovery, emailDiscoveryDefaultIds,
        List.take_of_length_le hlen]

/-- C6 witness: over a one-record collection whose record has a website and
no email, the job created with an absent id list targets exactly that
record and reports its parameter list's length. -/
theorem email_discovery_default_targets_witness :
    (start_email_discovery [wStoreW] none "job-1").2.stores_to_process
      = (start_email_discovery [wStoreW] none "job-1").1.length
    ∧ (start_email_discovery [wStoreW] none "job-1").1
      = ([wStoreW].filter (fun s => s.email == none && s.website != none)).map
          (fun s => s.id) :=
  ⟨(email_discovery_default_targets [wStoreW] "job-1" none (Or.inl rfl)).2.2.2.1,
   (email_discovery_default_targets [wStoreW] "job-1" none (Or.inl rfl)).2.2.2.2
     (by decide)⟩

/-! ## C7 — Hunter error mapping -/

/-- C7: the error surfaced by one client request is determined by the
provider outcome — 401 maps to the distinct unauthorized error, 403 to the
rate-limited/insufficient-credits error, a timeout to the 408 timeout
error, any other non-2xx response to a generic upstream error carrying the
provider's status and body, and a network-level failure to the 503
connectivity error — and the call consumes exactly one network attempt
whatever the outcome: nothing is retried. -/
theorem make_request_error_mapping (rest : List RequestOutcome) :
    (∀ body, make_request (.response 401 body :: rest)
        = (.error { status := 401, detail := "Invalid API key" }, rest))
    ∧ (∀ body, make_request (.response 403 body :: rest)
        = (.error { status := 429, detail := "Rate limit exceeded or insufficient credits" }, rest))
    ∧ make_request (.timeout :: rest)
        = (.error { status := 408, detail := "Request timeout" }, rest)
    ∧ (∀ msg, make_request (.networkError msg :: rest)
        = (.error { status := 503, detail := "Network error: " ++ msg }, rest))
    ∧ (∀ status body, ¬(200 ≤ status ∧ status < 300) → status ≠ 401 → status ≠ 403 →
        make_request (.response status body :: rest)
          = (.error { status := status, detail := "API request failed: " ++ body }, rest))
    ∧ (∀ outcome, (make_request (outcome :: rest)).2 = rest) := by
  refine ⟨fun body => rfl, fun body => rfl, rfl, fun msg => rfl, ?_, ?_⟩
  · intro status body h2xx h401 h403
    have h200 : status ≠ 200 := by omega
    simp [make_request, interpretResponse, h401, h403, h200]
  · intro outcome
    cases outcome <;> rfl

/-- C7 witness: a provider 404 surfaces as the generic upstream error with
the provider's status and body, and consumes exactly the one pending
attempt. -/
theorem make_request_error_mapping_witness :
    make_request (.response 404 "missing" :: [])
      = (.error { status := 404, detail := "API request failed: " ++ "missing" }, []) :=
  (make_request_error_mapping []).2.2.2.2.1 404 "missing" (by omega)
    (by omega) (by omega)

/-! ## C9 — best-effort scraping -/

/-- The candidates a Reddit post contributes, if its extraction does not
raise. -/
def postCandidates : RawPost → Option (List Candidate)
  | .post cs => some cs
  | .malformed => none

/-- The Reddit accumulation loop appends, in order, the candidate lists of
the posts whose extraction does not raise. -/
theorem reddit_foldl_append (posts : List RawPost) (acc : List Candidate) :
    posts.foldl
      (fun acc p =>
        match p with
        | .post cs => acc ++ cs
        | .malformed => acc) acc
      = acc ++ (posts.filterMap postCandidates).flatten := by
  induction posts generalizing acc with
  | nil => simp
  | cons p ps ih =>
      cases p <;>
        simp [List.foldl_cons, ih, postCandidates, List.filterMap_cons]

/-- C9: for both collectors a network-level failure or any non-2xx response
yields the empty result list rather than an error; every returned candidate
comes from an item whose parsing succeeded, so a raising item is excluded
from the results; and deleting a raising item from the response leaves the
collector's output unchanged (for Yellow Pages, whenever the page fits the
`max_results` slice); nothing is ever propagated to the caller. -/
theorem scraper_error_handling :
    (∀ status items url m, ¬(200 ≤ status ∧ status < 300) →
        search_yellow_pages (.response status items) url m = [])
    ∧ (∀ url m, search_yellow_pages .netError url m = [])
    ∧ (∀ items url m c, c ∈ search_yellow_pages (.response 200 items) url m →
        ∃ r, r ∈ items ∧ r ≠ .malformed ∧ parseYPResult url r = some c)
    ∧ (∀ items₁ items₂ url m, (items₁ ++ .malformed :: items₂).length ≤ m →
        search_yellow_pages (.response 200 (items₁ ++ .malformed :: items₂)) url m
          = search_yellow_pages (.response 200 (items₁ ++ items₂)) url m)
    ∧ (∀ status posts, ¬(200 ≤ status ∧ status < 300) →
        search_reddit (.response status posts) = [])
    ∧ search_reddit .netError = []
    ∧ (∀ posts₁ posts₂,
        search_reddit (.response 200 (posts₁ ++ .malformed :: posts₂))
          = search_reddit (.response 200 (posts₁ ++ posts₂)))
    ∧ (∀ posts c, c ∈ search_reddit (.response 200 posts) →
        ∃ cs, RawPost.post cs ∈ posts ∧ c ∈ cs) := by
  refine ⟨?_, fun url m => rfl, ?_, ?_, ?_, rfl, ?_, ?_⟩
  · intro status items url m h2xx
    have h200 : status ≠ 200 := by omega
    simp [search_yellow_pages, h200]
  · intro items url m c hc
    simp only [search_yellow_pages, ne_eq, not_true_eq_false, if_false,
      ite_false] at hc
    rw [List.mem_filterMap] at hc
    obtain ⟨r, hr, hpr⟩ := hc
    refine ⟨r, List.take_subset m items hr, ?_, hpr⟩
    intro hmal
    subst hmal
    simp [parseYPResult] at hpr
  · intro items₁ items₂ url m hlen
    have hlen' : (items₁ ++ items₂).length ≤ m := by
      simp only [List.length_append, List.length_cons] at hlen ⊢
      omega
    simp [search_yellow_pages, List.take_of_length_le hlen,
      List.take_of_length_le hlen', List.filterMap_append, parseYPResult]
  · intro status posts h2xx
    have h200 : status ≠ 200 := by omega
    simp [search_reddit, h200]
  · intro posts₁ posts₂
    simp only [search_reddit, ne_eq, not_true_eq_false, if_false, ite_false]
    rw [reddit_foldl_append, reddit_foldl_append]
    simp [List.filterMap_append, postCandidates, List.filterMap_cons]
  · intro posts c hc
    simp only [search_reddit, ne_eq, not_true_eq_false, if_false,
      ite_false] at hc
    rw [reddit_foldl_append] at hc
    simp only [List.nil_append, List.mem_flatten, List.mem_filterMap] at hc
    obtain ⟨cs, ⟨p, hp, hpc⟩, hccs⟩ := hc
    cases p with
    | post cs' =>
        refine ⟨cs', hp, ?_⟩
        cases hpc
        exact hccs
    | malformed => simp [postCandidates] at hpc

/-- C9 witness: a 404 directory page and a 500 Reddit response yield empty
lists; a raising directory block contributes nothing to the parsed
output. -/
theorem scraper_error_handling_witness :
    search_yellow_pages (.response 404 [.malformed]) "u" 10 = []
    ∧ search_reddit (.response 500 [.malformed]) = []
    ∧ search_yellow_pages
        (.response 200 [.malformed, .fields (some "A") none none none none]) "u" 10
      = search_yellow_pages
          (.response 200 [.fields (some "A") none none none none]) "u" 10 :=
  ⟨scraper_error_handling.1 404 [.malformed] "u" 10 (by omega),
   scraper_error_handling.2.2.2.2.1 500 [.malformed] (by omega),
   scraper_error_handling.2.2.2.1 [] [.fields (some "A") none none none none]
     "u" 10 (by decide)⟩

/-! ## C8 — store listing filter -/

/-- The empty pattern occurs in every text. -/
theorem containsSeg_nil (l : List Char) : containsSeg [] l = true := by
  cases l <;> simp [containsSeg, beginsWith]

/-- On a pattern with no `.` metacharacter, anchored regex matching is
case-folded prefix comparison. -/
theorem regexAccepts_eq_beginsWith (t : List Char) (h : ∀ c ∈ t, c ≠ '.') :
    ∀ s, regexAccepts (t.map (fun c => if c = '.' then RegexToken.dot else .lit c)) s
      = beginsWith (t.map Char.toLower) (s.map Char.toLower) := by
  induction t with
  | nil => intro s; cases s <;> rfl
  | cons c cs ih =>
      intro s
      have hc : c ≠ '.' := h c (by simp)
      cases s with
      | nil => simp [hc, regexAccepts, beginsWith]
      | cons x xs =>
          simp [hc, regexAccepts, beginsWith,
            ih (fun c' hc' => h c' (by simp [hc'])) xs]

/-- On a pattern with no `.` metacharacter, unanchored regex search is
case-folded segment containment. -/
theorem regexFindIn_eq_containsSeg (t : List Char) (h : ∀ c ∈ t, c ≠ '.') :
    ∀ s, regexFindIn (t.map (fun c => if c = '.' then RegexToken.dot else .lit c)) s
      = containsSeg (t.map Char.toLower) (s.map Char.toLower) := by
  intro s
  induction s with
  | nil => simpa using regexAccepts_eq_beginsWith t h []
  | cons x xs ih =>
      simp [regexFindIn, containsSeg, regexAccepts_eq_beginsWith t h, ih]

/-- A metacharacter-free search term matches by regex exactly when it is a
case-insensitive substring. -/
theorem regexFindIn_eq_containsCI (t : String)
    (hnodot : ∀ c ∈ t.data, c ≠ '.') (s : String) :
    regexFindIn (compileTerm t) s.data = containsCI t s := by
  simpa [compileTerm, containsCI] using
    regexFindIn_eq_containsSeg t.data hnodot s.data

/-- A record with the literal name "abc" and no city/address. -/
def cStoreR : DVDStore := { id := "r1", name := "abc", source := "manual" }

/-- A record carrying a state, listed against an empty state filter. -/
def cStoreS : DVDStore :=
  { id := "r2", name := "x", state := some "CA", source := "manual" }

/-- C8 counterexample: the search term is passed to `$regex` as a regular
expression, not a literal — the term "a.c" returns the record named "abc"
although "a.c" is not a substring of "abc" — and an empty (falsy) state
filter is dropped, returning a record whose state is "CA" rather than
matching the given "" exactly. -/
theorem get_stores_substring_claim_false :
    get_stores [cStoreR] 0 100 (some "a.c") none none = .ok [cStoreR]
    ∧ claimedStoreMatch (some "a.c") none none cStoreR = false
    ∧ get_stores [cStoreS] 0 100 none (some "") none = .ok [cStoreS]
    ∧ claimedStoreMatch none (some "") none cStoreS = false :=
  ⟨rfl, rfl, rfl, rfl⟩

/-- C8 (amended): with validated query parameters the listing returns the
filtered collection paginated by `skip`/`limit`; an out-of-range `limit`
(or negative `skip`) is rejected; and whenever every character of the
search term is free of regex metacharacters and the state filter is not the
empty string, the filter built by the handler coincides with the claim's
predicate — case-insensitive substring containment of the term in
name/city/address, exact state, exact verified flag. -/
theorem get_stores_spec (db : List DVDStore) (skip limit : ℤ)
    (search state : Option String) (verified : Option Bool) :
    (0 ≤ skip → 1 ≤ limit → limit ≤ 500 →
      get_stores db skip limit search state verified
        = .ok (((db.filter (storeMatchesFilter search state verified)).drop
            skip.toNat).take limit.toNat))
    ∧ (limit < 1 ∨ 500 < limit →
      get_stores db skip limit search state verified
        = .error { status := 422, detail := "query parameter validation failed" })
    ∧ ((∀ t, search = some t → t.data.all (fun c => !isRegexMeta c) = true) →
      state ≠ some "" →
      ∀ s, storeMatchesFilter search state verified s
        = claimedStoreMatch search state verified s) := by
  refine ⟨?_, ?_, ?_⟩
  · intro h0 h1 h5
    rw [get_stores, if_neg (by omega)]
  · intro hbad
    rw [get_stores, if_pos (by omega)]
  · intro hterm hstate s
    have hnodot : ∀ t, search = some t → ∀ c ∈ t.data, c ≠ '.' := by
      intro t hs c hc hdot
      have h2 := List.all_eq_true.mp (hterm t hs) c hc
      subst hdot
      simp [isRegexMeta] at h2
    unfold storeMatchesFilter claimedStoreMatch
    congr 1
    · congr 1
      · cases search with
        | none => rfl
        | some t =>
            show (if t = "" then true
                else regexFindIn (compileTerm t) s.name.data
                  || regexMatchOpt (compileTerm t) s.city
                  || regexMatchOpt (compileTerm t) s.address)
              = (containsCI t s.name
                || (match s.city with | none => false | some c => containsCI t c)
                || (match s.address with | none => false | some a => containsCI t a))
            by_cases ht : t = ""
            · subst ht
              rw [if_pos rfl]
              simp [containsCI, containsSeg_nil]
            · rw [if_neg ht, regexFindIn_eq_containsCI t (hnodot t rfl) s.name]
              cases s.city <;> cases s.address <;>
                simp [regexMatchOpt, regexFindIn_eq_containsCI t (hnodot t rfl)]
      · cases state with
        | none => rfl
        | some st =>
            show (if st = "" then true else s.state == some st)
              = (s.state == some st)
            exact if_neg (fun h => hstate (by rw [h]))

/-- C8 witness: a metacharacter-free term over a one-record collection —
the listing returns the paginated filter result, and the handler's filter
agrees with substring semantics on the record. -/
theorem get_stores_spec_witness :
    get_stores [cStoreR] 0 100 (some "abc") none none
      = .ok ((([cStoreR].filter
          (storeMatchesFilter (some "abc") none none)).drop
            (0 : ℤ).toNat).take (100 : ℤ).toNat)
    ∧ storeMatchesFilter (some "abc") none none cStoreR
      = claimedStoreMatch (some "abc") none none cStoreR :=
  ⟨(get_stores_spec [cStoreR] 0 100 (some "abc") none none).1
      (by omega) (by omega) (by omega),
   (get_stores_spec [cStoreR] 0 100 (some "abc") none none).2.2
      (fun t ht => Option.some.inj ht ▸
        (by decide : ("abc").data.all (fun c => !isRegexMeta c) = true))
      (by simp) cStoreR⟩
